import Mathlib

/-!
Verification development for the pyroed core (`pyroed/models.py`,
`pyroed/inference.py`) and the example driver (`examples/rollout_tf8.py`).

The Python code is shallowly embedded:

* a `Schema` is the ordered list of (variable name, domain) pairs of the
  Python `OrderedDict`;
* a torch tensor of category indices is a `List Nat` (one design) or a
  `List (List Nat)` (a batch of designs); real-valued tensors are lists of
  rationals, and a general coefficient tensor is a shape together with an
  entry function on multi-indices;
* the stochastic primitives (`pyro.sample`) are made deterministic by
  passing an explicit draw environment `Env` assigning a rational value to
  every (site name, index) pair; each executed sample statement is recorded
  in a trace together with the distribution it draws from, and a run is
  "valid" when every unobserved drawn value lies in the support of its
  site's distribution;
* Python exceptions (`assert`, `raise ValueError`, `StopIteration`,
  torch's `randint` error) are `Except String`.

Everything is translated from the source; the only definition translated
from the spec is `validate` (its module, `pyroed/typing.py`, is not among
the provided sources) and it is marked as such.
-/

namespace Pyroed

/-- A torch tensor of rationals: a shape together with an entry function on
multi-indices (row-major indexing is irrelevant here; entries are addressed
by their multi-index directly). -/
structure Tensor where
  shape : List Nat
  data : List Nat → ℚ

/-- All multi-indices of a given shape, in lexicographic order. -/
def allIndices : List Nat → List (List Nat)
  | [] => [[]]
  | n :: rest => (List.range n).flatMap (fun i => (allIndices rest).map (fun idx => i :: idx))

/-- The entries of a tensor, enumerated over all multi-indices of its shape. -/
def tensorValues (t : Tensor) : List ℚ := (allIndices t.shape).map t.data

/-- A schema (`SCHEMA` in the Python code): an ordered association of variable
names to their finite ordered domains of category labels. -/
abbrev Schema := List (String × List String)

/-- Domain size of a named variable, `len(schema[name])` in the source;
`0` when the name is absent (Python would raise `KeyError`, a case excluded
by the hypotheses of every theorem below). -/
def domSize (schema : Schema) (name : String) : Nat :=
  match schema.lookup name with
  | some dom => dom.length
  | none => 0

/-- A coefficient dictionary (`Coefs` in `pyroed/typing.py`): insertion-ordered
entries mapping a feature-block key (or the sentinel `None`, embedded as
`Option.none`) to a coefficient tensor. -/
abbrev Coefs := List (Option (List String) × Tensor)

/-- The `choices` dict of `linear_response`: `dict(zip(schema, sequence.unbind(-1)))`,
looked up at a variable name.  Returns `none` where Python would raise `KeyError`. -/
def lookupChoice (schemaNames : List String) (seq : List Nat) (name : String) : Option Nat :=
  (schemaNames.zip seq).lookup name

/-- The vector-vector product `extra_features @ coefs[None]` for one design:
the dot product of the extra-feature row with the 1-D coefficient tensor. -/
def dotT (e : List ℚ) (t : Tensor) : ℚ :=
  ((List.range e.length).map (fun j => e.getD j 0 * t.data [j])).sum

/-- Evaluation of `tuple(f(name) for name in l)` where each element may fail
(`KeyError` propagates as `none`). -/
def mapOpt (f : α → Option β) : List α → Option (List β)
  | [] => some []
  | a :: l =>
      match f a, mapOpt f l with
      | some b, some bs => some (b :: bs)
      | _, _ => none

/-- One term of the loop body of `linear_response`: for the `None` key, the
extra-feature dot product (`none` when `extra_features is None`, where Python
asserts); for a block key, the coefficient entry at the design's realized
category indices in the block's variables (`none` on a `KeyError`). -/
def blockContrib (schemaNames : List String) (seq : List Nat) (extra : Option (List ℚ)) :
    Option (List String) × Tensor → Option ℚ
  | (none, t) => extra.map (fun e => dotT e t)
  | (some key, t) => (mapOpt (lookupChoice schemaNames seq) key).map t.data

/-- Embedding of `linear_response` (`pyroed/models.py`) for a single design:
starting from `torch.tensor(0.0)`, fold over the coefficient dictionary in
insertion order, adding each entry's contribution.  `none` models the
exceptional executions (`KeyError` / failed `assert`). -/
def linear_response (schemaNames : List String) (coefs : Coefs) (seq : List Nat)
    (extra : Option (List ℚ)) : Option ℚ :=
  coefs.foldlM (fun acc c => (blockContrib schemaNames seq extra c).map (acc + ·)) 0

/-- The shape preconditions asserted by `linear_response` on the non-traced
path (lines 30-41 and 50-52 of `pyroed/models.py`): the design has one entry
per schema variable; the `None` key is present exactly when extra features
are, is 1-dimensional, and matches the extra features' length; every block
key's tensor has one dimension per key variable. -/
def linear_response_pre (schemaNames : List String) (coefs : Coefs) (seq : List Nat)
    (extra : Option (List ℚ)) : Prop :=
  seq.length = schemaNames.length ∧
  (match extra with
   | none => ∀ c ∈ coefs, c.1 ≠ none
   | some e => (∃ c ∈ coefs, c.1 = none) ∧
       ∀ c ∈ coefs, c.1 = none → c.2.shape.length = 1 ∧ c.2.shape = [e.length]) ∧
  (∀ c ∈ coefs, ∀ key, c.1 = some key → c.2.shape.length = key.length)

/-- The realized category index of a named variable for a design, with the
(unreachable under the theorems' hypotheses) default `0`. -/
def realizedIndex (schemaNames : List String) (seq : List Nat) (name : String) : Nat :=
  (lookupChoice schemaNames seq name).getD 0

/-- The per-entry contribution of the closed-form sum: the extra-feature dot
product for the `None` key, and the coefficient entry at the design's realized
category indices for a block key. -/
def closedContrib (schemaNames : List String) (seq : List Nat) (extra : Option (List ℚ)) :
    Option (List String) × Tensor → ℚ
  | (none, t) => (extra.map (fun e => dotT e t)).getD 0
  | (some key, t) => t.data (key.map (realizedIndex schemaNames seq))

/-! Embedding of `model` (`pyroed/models.py`)

The Python sample-site names are strings built with f-strings; here they are
a structured type carrying the same data (`ps`, the schema positions of a
block's variables, stands for the `"_".join(map(str, ps))` suffix; the
string names are in bijection with these constructors). -/

/-- Names of the pyro sample sites of `model`. -/
inductive SiteName
  | coef_scale_loc
  | coef_scale_scale
  | block_coef_scale (ps : List Nat)
  | block_coef (ps : List Nat)
  | extra_coef_scale
  | extra_coef
  | within_batch_scale
  | across_batch_scale
  | batch_response
  | responses
  | logits
  | quantized_response
  deriving DecidableEq, Repr

/-- The distribution a sample site draws from, with its parameters.
`normalTensor` is the zero-mean `dist.Normal(torch.zeros(shape), scale).to_event`
of the coefficient sites; `normalVec`/`binomialVec` are the plate-vectorized
likelihood sites (one scalar component per plate index). -/
inductive D
  | normal (loc scale : ℚ)
  | logNormal (loc scale : ℚ)
  | normalTensor (shape : List Nat) (scale : ℚ)
  | normalVec (loc : List ℚ) (scale : ℚ)
  | binomialVec (bins : Nat) (logits : List ℚ)
  deriving Repr

/-- Whether a scalar value lies in the support of a distribution: log-normal
draws are positive, binomial draws are naturals bounded by the trial count,
normal draws are unconstrained. -/
def D.supportOK : D → ℚ → Bool
  | D.normal _ _, _ => true
  | D.normalVec _ _, _ => true
  | D.normalTensor _ _, _ => true
  | D.logNormal _ _, v => decide (0 < v)
  | D.binomialVec bins _, v => (List.range (bins + 1)).any (fun k => decide (v = (k : ℚ)))

/-- One executed `pyro.sample` statement: its site name, the distribution it
draws from, the scalar values drawn (or observed) at it, and whether it was
an observation (`obs=...` with a present observation). -/
structure Site where
  name : SiteName
  dist : D
  values : List ℚ
  observed : Bool

/-- A draw environment: the value the pseudo-random stream yields at a given
site and multi-index.  Passing it explicitly makes the model a deterministic
function; distribution-support facts become hypotheses via `validRun`. -/
abbrev Env := SiteName → List Nat → ℚ

/-- A run is valid when every value drawn (not observed) at a site lies in
the support of that site's distribution. -/
def validRun (trace : List Site) : Bool :=
  trace.all (fun s => s.observed || s.values.all (fun v => D.supportOK s.dist v))

/-- An experiment dict (`experiment` in the source): sequences of category
indices, parallel batch ids, and optional parallel responses. -/
structure Experiment where
  sequences : List (List Nat)
  batch_ids : List Nat
  responses : Option (List ℚ)
  deriving DecidableEq

/-- Modelled from the spec: the `validate(schema, experiment=experiment)`
call of `model` comes from `pyroed/typing.py`, which is not among the
provided sources.  Per the spec it checks the shape/dtype/schema
relationships between Experiment and Schema: parallel lengths of sequences,
batch ids and responses, and each design being one category index per schema
variable, each within its variable's domain. -/
def validate (schema : Schema) (experiment : Experiment) : Bool :=
  decide (experiment.batch_ids.length = experiment.sequences.length) &&
  (match experiment.responses with
   | some r => decide (r.length = experiment.sequences.length)
   | none => true) &&
  experiment.sequences.all (fun row =>
    decide (row.length = schema.length) &&
    (schema.zip row).all (fun p => decide (p.2 < p.1.2.length)))

/-- The assertions of `model` on `extra_features` (lines 87-89 of
`pyroed/models.py`): a 2-D (hence rectangular) tensor with one row per
experiment row. -/
def extraOk (extra_features : Option (List (List ℚ))) (N : Nat) : Bool :=
  match extra_features with
  | none => true
  | some e => decide (e.length = N) && e.all (fun row => decide (row.length = (e.headD []).length))

/-- The draw of a tensor-shaped sample site: entries taken from the
environment at every multi-index of the shape. -/
def drawTensor (env : Env) (name : SiteName) (shape : List Nat) : Tensor :=
  ⟨shape, fun idx => env name idx⟩

/-- The schema positions `ps = tuple(name_to_int[name] for name in block)`
of a block's variables. -/
def blockPs (schemaNames : List String) (block : List String) : List Nat :=
  block.map (fun name => schemaNames.findIdx (fun m => m == name))

/-- The shape `tuple(len(schema[name]) for name in block)` of a block's
coefficient tensor. -/
def blockShape (schema : Schema) (block : List String) : List Nat :=
  block.map (fun name => domSize schema name)

/-- The two sample statements of the per-block loop of `model` (lines
97-111): a block coefficient scale from the shared log-normal hyperprior,
then the block's coefficient tensor from a zero-mean normal with that scale;
paired with the coefficient-dictionary entry the loop inserts. -/
def blockData (schema : Schema) (env : Env) (csl css : ℚ) (block : List String) :
    List Site × (Option (List String) × Tensor) :=
  let shape := blockShape schema block
  let ps := blockPs (schema.map Prod.fst) block
  let coef_scale := env (SiteName.block_coef_scale ps) []
  let coef := drawTensor env (SiteName.block_coef ps) shape
  ([⟨SiteName.block_coef_scale ps, D.logNormal csl css, [coef_scale], false⟩,
    ⟨SiteName.block_coef ps, D.normalTensor shape coef_scale, tensorValues coef, false⟩],
   (some block, coef))

/-- The extra-feature coefficient sampling of `model` (lines 112-120),
executed only when extra features are supplied: a scale from the shared
hyperprior and a coefficient vector sized to the extra features' last
dimension, inserted under the `None` key. -/
def extraPart (env : Env) (csl css : ℚ) : Option (List (List ℚ)) → List Site × Coefs
  | none => ([], [])
  | some e =>
      let F := (e.headD []).length
      let cs := env SiteName.extra_coef_scale []
      let c := drawTensor env SiteName.extra_coef [F]
      ([⟨SiteName.extra_coef_scale, D.logNormal csl css, [cs], false⟩,
        ⟨SiteName.extra_coef, D.normalTensor [F] cs, tensorValues c, false⟩],
       [(none, c)])

/-- The batched call `linear_response(schema, coefs, experiment["sequences"],
extra_features)`: torch broadcasting computes, row by row, the single-design
linear response with the matching extra-feature row.  The `getD 0` default is
unreachable under the validation hypotheses of the theorems below. -/
def batchedLinearResponse (schemaNames : List String) (coefs : Coefs)
    (sequences : List (List Nat)) (extra : Option (List (List ℚ))) : List ℚ :=
  match extra with
  | none => sequences.map (fun s => (linear_response schemaNames coefs s none).getD 0)
  | some e => (sequences.zip e).map
      (fun p => (linear_response schemaNames coefs p.1 (some p.2)).getD 0)

/-- The batch-effect section of `model` (lines 132-143): with `B = 1` the
within-batch location is the plain linear response and nothing is sampled;
otherwise an across-batch scale and a `B`-plate of zero-mean batch offsets
are sampled and gathered by batch id onto each row. -/
def batchPart (B : Nat) (batch_ids : List Nat) (response_loc : List ℚ) (env : Env) :
    List Site × List ℚ :=
  if B = 1 then ([], response_loc)
  else
    let acrossScale := env SiteName.across_batch_scale []
    let br := (List.range B).map (fun b => env SiteName.batch_response [b])
    ([⟨SiteName.across_batch_scale, D.logNormal 0 1, [acrossScale], false⟩,
      ⟨SiteName.batch_response, D.normalVec (List.replicate B 0) acrossScale, br, false⟩],
     (response_loc.zip batch_ids).map (fun p => p.1 + br.getD p.2 0))

/-- The likelihood section of `model` (lines 146-175), inside the `data`
plate of size `N`: Gaussian observation for `"real"`; a latent logit vector
and a quantized binomial observation for `"unit_interval"`, with the
rescaled simulated response recorded as a deterministic site when responses
are absent; `ValueError` for any other response type.  Returns the sites
executed and, on success, the deterministic sites. -/
def likelihoodPart (response_type : String) (quantization_bins N : Nat)
    (responses : Option (List ℚ)) (within_batch_loc : List ℚ) (wbs : ℚ) (env : Env) :
    List Site × Except String (List (SiteName × List ℚ)) :=
  if response_type = "real" then
    match responses with
    | some r => ([⟨SiteName.responses, D.normalVec within_batch_loc wbs, r, true⟩], Except.ok [])
    | none =>
        ([⟨SiteName.responses, D.normalVec within_batch_loc wbs,
           (List.range N).map (fun i => env SiteName.responses [i]), false⟩], Except.ok [])
  else if response_type = "unit_interval" then
    let lg := (List.range N).map (fun i => env SiteName.logits [i])
    let logitsSite : Site := ⟨SiteName.logits, D.normalVec within_batch_loc wbs, lg, false⟩
    match responses with
    | some r =>
        let qobs := r.map (fun x => ((round (x * (quantization_bins : ℚ)) : ℤ) : ℚ))
        ([logitsSite, ⟨SiteName.quantized_response, D.binomialVec quantization_bins lg, qobs, true⟩],
         Except.ok [])
    | none =>
        let q := (List.range N).map (fun i => env SiteName.quantized_response [i])
        ([logitsSite, ⟨SiteName.quantized_response, D.binomialVec quantization_bins lg, q, false⟩],
         Except.ok [(SiteName.responses, q.map (fun x => x / (quantization_bins : ℚ)))])
  else
    ([], Except.error ("ValueError: Unknown response_type type " ++ response_type))

/-- The successful outcome of a run of `model`: the returned coefficient
dictionary, the linear response vector, the within-batch location used by
the likelihood, and the deterministic sites recorded. -/
structure ModelOk where
  coefs : Coefs
  response_loc : List ℚ
  within_batch_loc : List ℚ
  dets : List (SiteName × List ℚ)

/-- Maximum of a list of naturals (`int(experiment["batch_ids"].max())`;
torch raises on an empty tensor, a case excluded by the theorems below). -/
def maxNat (l : List Nat) : Nat := l.foldl max 0

/-- Embedding of `model` (`pyroed/models.py`, lines 59-177) on the
non-traced (`__debug__`, no JIT) path, as a deterministic function of the
draw environment.  Returns the trace of executed sample sites and either
the model outcome or the exception raised.  The argument order and the
order of operations (default `max_batch_id`, validation, hierarchical
coefficient sampling, linear response, batch effect, likelihood) follow the
source. -/
def model (schema : Schema) (feature_blocks : List (List String))
    (extra_features : Option (List (List ℚ))) (experiment : Experiment)
    (max_batch_id : Option Nat) (response_type : String) (quantization_bins : Nat)
    (env : Env) : List Site × Except String ModelOk :=
  let maxB := max_batch_id.getD (maxNat experiment.batch_ids)
  let N := experiment.sequences.length
  let B := 1 + maxB
  if validate schema experiment && extraOk extra_features N then
    let csl := env SiteName.coef_scale_loc []
    let css := env SiteName.coef_scale_scale []
    let headSites : List Site :=
      [⟨SiteName.coef_scale_loc, D.normal (-2) 1, [csl], false⟩,
       ⟨SiteName.coef_scale_scale, D.logNormal 0 1, [css], false⟩]
    let blockResults := ([[]] ++ feature_blocks).map (blockData schema env csl css)
    let blockSites := (blockResults.map Prod.fst).flatten
    let extraRes := extraPart env csl css extra_features
    let coefs : Coefs := blockResults.map Prod.snd ++ extraRes.2
    let response_loc :=
      batchedLinearResponse (schema.map Prod.fst) coefs experiment.sequences extra_features
    let wbs := env SiteName.within_batch_scale []
    let wbsSite : Site := ⟨SiteName.within_batch_scale, D.logNormal 0 1, [wbs], false⟩
    let batchRes := batchPart B experiment.batch_ids response_loc env
    let baseSites := headSites ++ blockSites ++ extraRes.1 ++ [wbsSite] ++ batchRes.1
    let lp := likelihoodPart response_type quantization_bins N experiment.responses
        batchRes.2 wbs env
    (baseSites ++ lp.1, lp.2.map (fun dets => ⟨coefs, response_loc, batchRes.2, dets⟩))
  else ([], Except.error "AssertionError")

/-- The error message of a model outcome, `none` on success. -/
def errOf : Except String ModelOk → Option String
  | Except.error m => some m
  | Except.ok _ => none

/-- The coefficient dictionary of a successful model outcome ([] on error). -/
def okCoefs : Except String ModelOk → Coefs
  | Except.ok m => m.coefs
  | Except.error _ => []

/-! Embedding of `pyroed/inference.py` -/

/-- The `Sampler` helper of `pyroed/inference.py`: a dict of per-site sample
batches (insertion-ordered, values as lists of scalar draws — one scalar per
stored sample suffices for the claims, which only concern indexing) together
with the stored `num_samples`. -/
structure Sampler where
  samples : List (String × List ℚ)
  num_samples : Nat
  deriving DecidableEq

/-- Embedding of `Sampler.__init__`: `num_samples = len(next(iter(samples.values())))`
raises `StopIteration` on an empty dict, else stores the length of the first
site's batch. -/
def Sampler.init (samples : List (String × List ℚ)) : Except String Sampler :=
  match samples with
  | [] => Except.error "StopIteration"
  | (_, v) :: _ => Except.ok ⟨samples, v.length⟩

/-- Embedding of `torch.randint(lo, hi, ())` given the pseudo-random stream
value `r`: raises unless `lo < hi`, else yields a value in `[lo, hi)` (every
such value is attained as `r` ranges over `ℕ`). -/
def torch_randint (lo hi : Nat) (r : Nat) : Except String Nat :=
  if lo < hi then Except.ok (lo + r % (hi - lo))
  else Except.error "random_ expects from to be less than to"

/-- Embedding of `Sampler.__call__`: draw one index `i = torch.randint(0,
num_samples, ())` and return `{k: v[i] for k, v in samples.items()}` — the
same index for every site.  The out-of-range default of `getD` is
unreachable when every site holds `num_samples` samples. -/
def Sampler.call (s : Sampler) (r : Nat) : Except String (List (String × ℚ)) :=
  (torch_randint 0 s.num_samples r).map
    (fun i => s.samples.map (fun kv => (kv.1, kv.2.getD i 0)))

/-- The pyro parameter store: a global, mutable dict, embedded as an explicit
value threaded through `fit_svi`. -/
abbrev ParamStore := List (String × ℚ)

/-- Embedding of `pyro.clear_param_store()`. -/
def clear_param_store (_ : ParamStore) : ParamStore := []

/-- The per-step learning-rate decay factor passed to `ClippedAdam` by
`fit_svi`: `lrd = 0.1 ** (1 / num_steps)` (line 32 of
`pyroed/inference.py`), in exact real arithmetic. -/
noncomputable def fit_svi_lrd (num_steps : ℕ) : ℝ := (0.1 : ℝ) ^ ((1 : ℝ) / (num_steps : ℝ))

/-- The learning rate after `k` optimizer steps: `ClippedAdam` multiplies the
learning rate by the decay factor `lrd` once per step, so after `k` steps it
is `lr * lrd ^ k`. -/
noncomputable def lr_after (lr : ℝ) (num_steps k : ℕ) : ℝ := lr * fit_svi_lrd num_steps ^ k

/-- Embedding of the state effects of `fit_svi` (lines 27-49 of
`pyroed/inference.py`) on the global parameter store: the store is cleared
first, the guide (`AutoLowRankMultivariateNormal(model)`) is created against
the cleared store, and the `num_steps` SVI steps then update the store.
`mkGuide` and `step` abstract the guide construction and one `svi.step()`;
the function returns the guide and the final store. -/
def fit_svi {G : Type} (store : ParamStore) (mkGuide : ParamStore → G)
    (step : ParamStore → ParamStore) (num_steps : ℕ) : G × ParamStore :=
  let store1 := clear_param_store store
  let guide := mkGuide store1
  (guide, step^[num_steps] store1)

/-! Embedding of `update_experiment` (`examples/rollout_tf8.py`) -/

/-- Lexicographic comparison of designs, the order `sorted(design)` uses on
tuples of integers. -/
def lexLe : List Nat → List Nat → Bool
  | [], _ => true
  | _ :: _, [] => false
  | a :: as_, b :: bs => if a < b then true else if b < a then false else lexLe as_ bs

/-- Stable insertion of a design into a lexicographically sorted list. -/
def insertSorted (x : List Nat) : List (List Nat) → List (List Nat)
  | [] => [x]
  | y :: ys => if lexLe x y then x :: y :: ys else y :: insertSorted x ys

/-- The stable sort `sorted(design)` of Python, as insertion sort. -/
def sortDesigns : List (List Nat) → List (List Nat)
  | [] => []
  | x :: xs => insertSorted x (sortDesigns xs)

/-- The dataset collaborator of the rollout driver: exhaustive sequences and
responses, and the `seq_to_id` design-to-row index. -/
structure DataSet where
  sequences : List (List Nat)
  responses : List ℚ
  seq_to_id : List Nat → Nat

/-- Embedding of `update_experiment` (`examples/rollout_tf8.py`, lines
52-60): map the sorted design set through `seq_to_id`, build the new rows
(`sequences` and `responses` gathered at those ids, `batch_ids =
torch.zeros(len(ids)).long()`), and concatenate them onto each field of the
experiment (responses only when the experiment has them, since the dict
comprehension iterates the old experiment's keys). -/
def update_experiment (experiment : Experiment) (design : List (List Nat))
    (data : DataSet) : Experiment :=
  let ids := (sortDesigns design).map data.seq_to_id
  let new_sequences := ids.map (fun i => data.sequences.getD i [])
  let new_responses := ids.map (fun i => data.responses.getD i 0)
  let new_batch_ids := ids.map (fun _ => 0)
  { sequences := experiment.sequences ++ new_sequences
    batch_ids := experiment.batch_ids ++ new_batch_ids
    responses := experiment.responses.map (fun r => r ++ new_responses) }

/-! Theorems about `linear_response` (claim C1) -/

/-- Whether a coefficient entry's block contains the variable `v` (the
`None` key contains no variables). -/
def blockTouches (v : String) : Option (List String) × Tensor → Bool
  | (none, _) => false
  | (some key, _) => decide (v ∈ key)

lemma lookupChoice_isSome {schemaNames : List String} {seq : List Nat} {name : String}
    (hlen : seq.length = schemaNames.length) (hmem : name ∈ schemaNames) :
    ∃ i, lookupChoice schemaNames seq name = some i := by
  induction schemaNames generalizing seq with
  | nil => cases hmem
  | cons hd tl ih =>
      cases seq with
      | nil => simp at hlen
      | cons s srest =>
          by_cases hn : name = hd
          · exact ⟨s, by simp [lookupChoice, List.lookup, hn]⟩
          · have hbeq : (name == hd) = false := by simp [hn]
            have hmem' : name ∈ tl := by
              cases List.mem_cons.mp hmem with
              | inl h => exact absurd h hn
              | inr h => exact h
            have hlen' : srest.length = tl.length := by simpa using hlen
            obtain ⟨i, hi⟩ := ih hlen' hmem'
            refine ⟨i, ?_⟩
            simp only [lookupChoice] at hi ⊢
            simpa [List.lookup, hbeq] using hi

lemma mapOpt_eq_map {f : α → Option β} {l : List α} (d : β)
    (h : ∀ a ∈ l, (f a).isSome) :
    mapOpt f l = some (l.map (fun a => (f a).getD d)) := by
  induction l with
  | nil => rfl
  | cons a l ih =>
      have ha : (f a).isSome := h a (List.mem_cons_self a l)
      obtain ⟨b, hb⟩ := Option.isSome_iff_exists.mp ha
      have ih' := ih (fun x hx => h x (List.mem_cons_of_mem a hx))
      simp [mapOpt, hb, ih']

lemma foldlM_option_sum {α : Type} {f : α → Option ℚ} {g : α → ℚ} {l : List α}
    (h : ∀ x ∈ l, f x = some (g x)) (a : ℚ) :
    l.foldlM (fun acc c => (f c).map (acc + ·)) a = some (a + (l.map g).sum) := by
  induction l generalizing a with
  | nil => simp [List.foldlM]
  | cons x l ih =>
      have hx := h x (List.mem_cons_self x l)
      have ih' := ih (fun y hy => h y (List.mem_cons_of_mem x hy)) (a + g x)
      simp only [List.foldlM_cons, hx, Option.map_some', Option.bind_eq_bind,
        Option.some_bind, List.map_cons, List.sum_cons]
      rw [ih']
      ring_nf

lemma sum_sub_filter {α : Type} (p : α → Bool) (f g : α → ℚ) (l : List α)
    (h : ∀ x ∈ l, p x = false → f x = g x) :
    (l.map f).sum - (l.map g).sum
      = ((l.filter p).map f).sum - ((l.filter p).map g).sum := by
  induction l with
  | nil => simp
  | cons x l ih =>
      have ih' := ih (fun y hy hp => h y (List.mem_cons_of_mem x hy) hp)
      by_cases hp : p x = true
      · simp only [List.map_cons, List.sum_cons, List.filter_cons, hp, if_pos]
        rw [show f x + (l.map f).sum - (g x + (l.map g).sum)
              = f x - g x + ((l.map f).sum - (l.map g).sum) by ring, ih']
        ring
      · have hfx := h x (List.mem_cons_self x l) (Bool.eq_false_iff.mpr hp)
        simp only [List.map_cons, List.sum_cons, List.filter_cons, hp, if_neg, hfx,
          Bool.false_eq_true, ite_false]
        rw [show g x + (l.map f).sum - (g x + (l.map g).sum)
              = (l.map f).sum - (l.map g).sum by ring, ih']

lemma blockContrib_eq_closed {schemaNames : List String} {coefs : Coefs}
    {seq : List Nat} {extra : Option (List ℚ)}
    (hpre : linear_response_pre schemaNames coefs seq extra)
    (hkeys : ∀ c ∈ coefs, ∀ key, c.1 = some key → ∀ name ∈ key, name ∈ schemaNames) :
    ∀ c ∈ coefs, blockContrib schemaNames seq extra c
      = some (closedContrib schemaNames seq extra c) := by
  rintro ⟨k, t⟩ hc
  cases k with
  | none =>
      cases extra with
      | none => exact absurd rfl (hpre.2.1 _ hc)
      | some e => simp [blockContrib, closedContrib]
  | some key =>
      have hsome : ∀ name ∈ key, (lookupChoice schemaNames seq name).isSome := by
        intro name hn
        obtain ⟨i, hi⟩ := lookupChoice_isSome hpre.1 (hkeys _ hc key rfl name hn)
        simp [hi]
      simp only [blockContrib, mapOpt_eq_map 0 hsome, Option.map_some']
      rfl

/-- Claim C1.  Under the asserted preconditions (and the design's block
variables being schema variables, so no `KeyError`), `linear_response`
returns the sum, over the coefficient dictionary, of the coefficient entry
indexed by the design's realized categories in each block — the `None` entry
contributing the extra-feature dot product; and for two designs that agree
on every variable other than `v`, every block not containing `v` contributes
the same amount, the whole response difference being carried by the blocks
containing `v`. -/
theorem linear_response_linearity (schemaNames : List String) (coefs : Coefs)
    (s1 s2 : List Nat) (extra : Option (List ℚ)) (v : String)
    (hpre1 : linear_response_pre schemaNames coefs s1 extra)
    (hpre2 : linear_response_pre schemaNames coefs s2 extra)
    (hkeys : ∀ c ∈ coefs, ∀ key, c.1 = some key → ∀ name ∈ key, name ∈ schemaNames)
    (hagree : ∀ name ∈ schemaNames, name ≠ v →
      lookupChoice schemaNames s1 name = lookupChoice schemaNames s2 name) :
    linear_response schemaNames coefs s1 extra
        = some ((coefs.map (closedContrib schemaNames s1 extra)).sum) ∧
    linear_response schemaNames coefs s2 extra
        = some ((coefs.map (closedContrib schemaNames s2 extra)).sum) ∧
    (∀ c ∈ coefs, blockTouches v c = false →
      closedContrib schemaNames s1 extra c = closedContrib schemaNames s2 extra c) ∧
    (coefs.map (closedContrib schemaNames s1 extra)).sum
        - (coefs.map (closedContrib schemaNames s2 extra)).sum
      = ((coefs.filter (blockTouches v)).map (closedContrib schemaNames s1 extra)).sum
        - ((coefs.filter (blockTouches v)).map (closedContrib schemaNames s2 extra)).sum := by
  have huntouched : ∀ c ∈ coefs, blockTouches v c = false →
      closedContrib schemaNames s1 extra c = closedContrib schemaNames s2 extra c := by
    rintro ⟨k, t⟩ hc htouch
    cases k with
    | none => simp [closedContrib]
    | some key =>
        have hv : ∀ name ∈ key, name ≠ v := by
          intro name hn hnv
          subst hnv
          simp [blockTouches, hn] at htouch
        have : key.map (realizedIndex schemaNames s1) = key.map (realizedIndex schemaNames s2) := by
          refine List.map_congr_left (fun name hn => ?_)
          unfold realizedIndex
          rw [hagree name (hkeys _ hc key rfl name hn) (hv name hn)]
        simp [closedContrib, this]
  refine ⟨?_, ?_, huntouched, ?_⟩
  · have h := blockContrib_eq_closed hpre1 hkeys
    unfold linear_response
    rw [foldlM_option_sum h 0]
    simp
  · have h := blockContrib_eq_closed hpre2 hkeys
    unfold linear_response
    rw [foldlM_option_sum h 0]
    simp
  · exact sum_sub_filter (blockTouches v) _ _ coefs huntouched

/-- Witness for claim C1 at a concrete instance: schema `a, b` with domains
of size 2, singleton blocks for `a` and `b`, designs `[1, 0]` and `[0, 0]`
differing only in variable `a`. -/
theorem linear_response_linearity_witness :
    let sn : List String := ["a", "b"]
    let ta : Tensor := ⟨[2], fun idx => (idx.headD 0 : ℚ) * 3⟩
    let tb : Tensor := ⟨[2], fun idx => (idx.headD 0 : ℚ) * 5⟩
    let coefs : Coefs := [(some ["a"], ta), (some ["b"], tb)]
    linear_response sn coefs [1, 0] none
        = some ((coefs.map (closedContrib sn [1, 0] none)).sum) ∧
    linear_response sn coefs [0, 0] none
        = some ((coefs.map (closedContrib sn [0, 0] none)).sum) ∧
    (∀ c ∈ coefs, blockTouches "a" c = false →
      closedContrib sn [1, 0] none c = closedContrib sn [0, 0] none c) ∧
    (coefs.map (closedContrib sn [1, 0] none)).sum
        - (coefs.map (closedContrib sn [0, 0] none)).sum
      = ((coefs.filter (blockTouches "a")).map (closedContrib sn [1, 0] none)).sum
        - ((coefs.filter (blockTouches "a")).map (closedContrib sn [0, 0] none)).sum := by
  intro sn ta tb coefs
  have hpre : ∀ s : List Nat, s.length = 2 → linear_response_pre sn coefs s none := by
    intro s hs
    refine ⟨hs, ?_, ?_⟩
    · intro c hc
      simp only [coefs, List.mem_cons, List.not_mem_nil, or_false] at hc
      rcases hc with rfl | rfl <;> simp
    · intro c hc key hk
      simp only [coefs, List.mem_cons, List.not_mem_nil, or_false] at hc
      rcases hc with rfl | rfl <;> simp_all <;> subst hk <;> rfl
  refine linear_response_linearity sn coefs [1, 0] [0, 0] none "a"
    (hpre [1, 0] rfl) (hpre [0, 0] rfl) ?_ ?_
  · intro c hc key hk name hn
    simp only [coefs, List.mem_cons, List.not_mem_nil, or_false] at hc
    rcases hc with rfl | rfl <;> simp_all <;> subst hk <;> simp_all [sn]
  · intro name hmem hne
    simp only [sn, List.mem_cons, List.not_mem_nil, or_false] at hmem
    rcases hmem with rfl | rfl
    · exact absurd rfl hne
    · decide

/-! Theorems about `model` (claims C3-C6) -/

/-- Concrete one-variable schema used by witnesses and counterexamples. -/
def exSchema : Schema := [("a", ["x", "y"])]

/-- Concrete draw environment assigning `2` to every site (a legal draw for
every normal and log-normal site, and an integer within the binomial support
for any bin count of at least `2`). -/
def exEnv : Env := fun _ _ => 2

/-- A one-row experiment with no responses (simulation). -/
def exSimExperiment : Experiment := ⟨[[0]], [0], none⟩

/-- A one-row experiment with an observed response. -/
def exObsExperiment : Experiment := ⟨[[0]], [0], some [1/2]⟩

lemma except_map_ok {α β : Type} {e : Except String α} {f : α → β} {m : β}
    (h : e.map f = Except.ok m) : ∃ a, e = Except.ok a ∧ m = f a := by
  cases e with
  | error msg => simp [Except.map] at h
  | ok a => exact ⟨a, rfl, by simpa [Except.map] using h.symm⟩

lemma maxNat_eq_zero {l : List Nat} (h : ∀ b ∈ l, b = 0) : maxNat l = 0 := by
  have aux : ∀ (l' : List Nat), (∀ b ∈ l', b = 0) → l'.foldl max 0 = 0 := by
    intro l' h'
    induction l' with
    | nil => rfl
    | cons hd tl ih =>
        have h0 : hd = 0 := h' hd (List.mem_cons_self hd tl)
        have := ih (fun b hb => h' b (List.mem_cons_of_mem hd hb))
        simpa [h0] using this
  exact aux l h

lemma blockData_name {schema : Schema} {env : Env} {csl css : ℚ} {block : List String} :
    ∀ s ∈ (blockData schema env csl css block).1,
      s.name = SiteName.block_coef_scale (blockPs (schema.map Prod.fst) block) ∨
      s.name = SiteName.block_coef (blockPs (schema.map Prod.fst) block) := by
  intro s hs
  simp only [blockData, List.mem_cons, List.not_mem_nil, or_false] at hs
  rcases hs with rfl | rfl
  · exact Or.inl rfl
  · exact Or.inr rfl

lemma extraPart_name {env : Env} {csl css : ℚ} {ef : Option (List (List ℚ))} :
    ∀ s ∈ (extraPart env csl css ef).1,
      s.name = SiteName.extra_coef_scale ∨ s.name = SiteName.extra_coef := by
  intro s hs
  cases ef with
  | none => simp [extraPart] at hs
  | some e =>
      simp only [extraPart, List.mem_cons, List.not_mem_nil, or_false] at hs
      rcases hs with rfl | rfl
      · exact Or.inl rfl
      · exact Or.inr rfl

lemma likelihoodPart_name {rt : String} {bins N : Nat} {resp : Option (List ℚ)}
    {wbl : List ℚ} {wbs : ℚ} {env : Env} :
    ∀ s ∈ (likelihoodPart rt bins N resp wbl wbs env).1,
      s.name = SiteName.responses ∨ s.name = SiteName.logits ∨
      s.name = SiteName.quantized_response := by
  intro s hs
  unfold likelihoodPart at hs
  by_cases h1 : rt = "real"
  · rw [if_pos h1] at hs
    cases resp with
    | some r =>
        simp only [List.mem_singleton] at hs
        subst hs; exact Or.inl rfl
    | none =>
        simp only [List.mem_singleton] at hs
        subst hs; exact Or.inl rfl
  · rw [if_neg h1] at hs
    by_cases h2 : rt = "unit_interval"
    · rw [if_pos h2] at hs
      cases resp with
      | some r =>
          simp only [List.mem_cons, List.not_mem_nil, or_false] at hs
          rcases hs with rfl | rfl
          · exact Or.inr (Or.inl rfl)
          · exact Or.inr (Or.inr rfl)
      | none =>
          simp only [List.mem_cons, List.not_mem_nil, or_false] at hs
          rcases hs with rfl | rfl
          · exact Or.inr (Or.inl rfl)
          · exact Or.inr (Or.inr rfl)
    · rw [if_neg h2] at hs
      simp at hs

lemma likelihoodPart_ok {rt : String} {bins N : Nat} {resp : Option (List ℚ)}
    {wbl : List ℚ} {wbs : ℚ} {env : Env} (hrt : rt = "real" ∨ rt = "unit_interval") :
    ∃ dets, (likelihoodPart rt bins N resp wbl wbs env).2 = Except.ok dets := by
  rcases hrt with rfl | rfl <;> cases resp <;> simp [likelihoodPart]

lemma okCoefs_map {e : Except String (List (SiteName × List ℚ))}
    {c : Coefs} {rl wbl : List ℚ}
    (h : ∃ dets, e = Except.ok dets) :
    okCoefs (e.map (fun dets => ModelOk.mk c rl wbl dets)) = c := by
  obtain ⟨dets, rfl⟩ := h
  rfl

/-- Claim C3, amended.  With a response type that is neither `"real"` nor
`"unit_interval"` (and inputs passing validation), `model` fails with the
`ValueError`, but only at the likelihood stage: by then the latent
hyperparameters and coefficients have already been sampled — the trace is
non-empty and contains the `coef_scale_loc` draw. -/
theorem model_unknown_response_type (schema : Schema) (fb : List (List String))
    (ef : Option (List (List ℚ))) (exp : Experiment) (mbid : Option Nat)
    (rt : String) (bins : Nat) (env : Env)
    (hval : (validate schema exp && extraOk ef exp.sequences.length) = true)
    (hr : rt ≠ "real") (hu : rt ≠ "unit_interval") :
    (model schema fb ef exp mbid rt bins env).2
        = Except.error ("ValueError: Unknown response_type type " ++ rt) ∧
    ∃ s ∈ (model schema fb ef exp mbid rt bins env).1,
      s.name = SiteName.coef_scale_loc := by
  simp only [model]
  rw [if_pos hval]
  simp only [likelihoodPart, if_neg hr, if_neg hu]
  refine ⟨rfl, ⟨SiteName.coef_scale_loc, D.normal (-2) 1, [env SiteName.coef_scale_loc []],
    false⟩, ?_, rfl⟩
  simp

/-- Counterexample to claim C3 as stated: at a concrete valid input with
response type `"bogus"`, `model` does raise the `ValueError`, but the trace
at that point already contains the `coef_scale_loc` draw (and more), so the
failure does not occur before any latent variable is sampled. -/
theorem model_unknown_response_type_counterexample :
    errOf (model exSchema [["a"]] none exObsExperiment none "bogus" 100 exEnv).2
        = some "ValueError: Unknown response_type type bogus" ∧
    (model exSchema [["a"]] none exObsExperiment none "bogus" 100 exEnv).1.map Site.name ≠ [] ∧
    SiteName.coef_scale_loc ∈
      ((model exSchema [["a"]] none exObsExperiment none "bogus" 100 exEnv).1.map Site.name) := by
  decide

/-- Witness for the amended claim C3 at the same concrete input. -/
theorem model_unknown_response_type_witness :
    (model exSchema [["a"]] none exObsExperiment none "bogus" 100 exEnv).2
        = Except.error ("ValueError: Unknown response_type type " ++ "bogus") ∧
    ∃ s ∈ (model exSchema [["a"]] none exObsExperiment none "bogus" 100 exEnv).1,
      s.name = SiteName.coef_scale_loc :=
  model_unknown_response_type _ _ _ _ _ _ _ _ (by decide) (by decide) (by decide)

lemma batchPart_one (bids : List Nat) (rl : List ℚ) (env : Env) :
    batchPart 1 bids rl env = ([], rl) := by
  simp [batchPart]

/-- Claim C4.  For an experiment whose batch ids are all `0` — the one way
an experiment with exactly one distinct batch id can satisfy the data
model's dense-from-zero invariant, and exactly the condition `B == 1` of the
source — neither the across-batch scale nor the per-batch offsets are
sampled at all, and the location used by the likelihood equals the plain
linear response (the batch term is zero), identical to a model with no
batch-effect term. -/
theorem model_single_batch_noop (schema : Schema) (fb : List (List String))
    (ef : Option (List (List ℚ))) (exp : Experiment) (rt : String) (bins : Nat)
    (env : Env)
    (hval : (validate schema exp && extraOk ef exp.sequences.length) = true)
    (_hne : exp.batch_ids ≠ [])
    (h0 : ∀ b ∈ exp.batch_ids, b = 0) :
    (∀ s ∈ (model schema fb ef exp none rt bins env).1,
      s.name ≠ SiteName.across_batch_scale ∧ s.name ≠ SiteName.batch_response) ∧
    (∀ m, (model schema fb ef exp none rt bins env).2 = Except.ok m →
      m.within_batch_loc = m.response_loc) := by
  simp only [model]
  rw [if_pos hval]
  rw [Option.getD_none, maxNat_eq_zero h0]
  simp only [Nat.add_zero, batchPart_one]
  constructor
  · intro s hs
    simp only [List.mem_append, List.append_nil, List.mem_singleton, List.mem_cons,
      List.not_mem_nil, or_false, or_assoc] at hs
    rcases hs with rfl | rfl | hs | hs | rfl | hs
    · exact ⟨by simp, by simp⟩
    · exact ⟨by simp, by simp⟩
    · obtain ⟨l, hl, hsl⟩ := List.mem_flatten.mp hs
      obtain ⟨pr, hpr, rfl⟩ := List.mem_map.mp hl
      obtain ⟨blk, _, rfl⟩ := List.mem_map.mp hpr
      rcases blockData_name s hsl with h | h <;> rw [h] <;> exact ⟨by simp, by simp⟩
    · rcases extraPart_name s hs with h | h <;> rw [h] <;> exact ⟨by simp, by simp⟩
    · exact ⟨by simp, by simp⟩
    · rcases likelihoodPart_name s hs with h | h | h <;> rw [h] <;> exact ⟨by simp, by simp⟩
  · intro m hm
    obtain ⟨dets, _, rfl⟩ := except_map_ok hm
    rfl

/-- Witness for claim C4: a one-row experiment with batch id `0`. -/
theorem model_single_batch_noop_witness :
    (∀ s ∈ (model exSchema [["a"]] none exObsExperiment none "real" 100 exEnv).1,
      s.name ≠ SiteName.across_batch_scale ∧ s.name ≠ SiteName.batch_response) ∧
    (∀ m, (model exSchema [["a"]] none exObsExperiment none "real" 100 exEnv).2 = Except.ok m →
      m.within_batch_loc = m.response_loc) :=
  model_single_batch_noop _ _ _ _ _ _ _ (by decide) (by decide) (by decide)

lemma binomial_support {bins : Nat} {lg : List ℚ} {v : ℚ}
    (h : D.supportOK (D.binomialVec bins lg) v = true) : ∃ k : ℕ, k ≤ bins ∧ v = k := by
  simp only [D.supportOK, List.any_eq_true, List.mem_range] at h
  obtain ⟨k, hk, hv⟩ := h
  exact ⟨k, Nat.lt_succ_iff.mp hk, of_decide_eq_true hv⟩

lemma binom_div_bounds {k bins : ℕ} (hk : k ≤ bins) :
    0 ≤ (k : ℚ) / (bins : ℚ) ∧ (k : ℚ) / (bins : ℚ) ≤ 1 :=
  ⟨div_nonneg (Nat.cast_nonneg k) (Nat.cast_nonneg bins),
   div_le_one_of_le₀ (by exact_mod_cast hk) (Nat.cast_nonneg bins)⟩

lemma likelihoodPart_unit_sim (bins N : Nat) (wbl : List ℚ) (wbs : ℚ) (env : Env) :
    likelihoodPart "unit_interval" bins N none wbl wbs env
      = ([⟨SiteName.logits, D.normalVec wbl wbs,
            (List.range N).map (fun i => env SiteName.logits [i]), false⟩,
          ⟨SiteName.quantized_response,
            D.binomialVec bins ((List.range N).map (fun i => env SiteName.logits [i])),
            (List.range N).map (fun i => env SiteName.quantized_response [i]), false⟩],
         Except.ok [(SiteName.responses,
           ((List.range N).map (fun i => env SiteName.quantized_response [i])).map
             (fun x => x / (bins : ℚ)))]) := by
  simp [likelihoodPart]

/-- Claim C5.  Under `"unit_interval"` with no observed responses, every
simulated response exposed by the model (the deterministic `responses`
site) lies in `[0, 1]`: it is the binomial `quantized_response` draw (at
most `quantization_bins`, by the support of a binomial with
`quantization_bins` trials) divided by `quantization_bins`.  Under
`"real"`, no such bound holds: a concrete valid simulation run draws the
response `2 > 1`. -/
theorem model_unit_interval_simulated_bounds (schema : Schema) (fb : List (List String))
    (ef : Option (List (List ℚ))) (exp : Experiment) (mbid : Option Nat) (bins : Nat)
    (env : Env)
    (hval : (validate schema exp && extraOk ef exp.sequences.length) = true)
    (hresp : exp.responses = none)
    (hrun : validRun (model schema fb ef exp mbid "unit_interval" bins env).1 = true) :
    (∀ m, (model schema fb ef exp mbid "unit_interval" bins env).2 = Except.ok m →
      ∀ vals, (SiteName.responses, vals) ∈ m.dets → ∀ v ∈ vals, 0 ≤ v ∧ v ≤ 1) ∧
    (validRun (model exSchema [] none exSimExperiment none "real" 100 exEnv).1 = true ∧
     ∃ s ∈ (model exSchema [] none exSimExperiment none "real" 100 exEnv).1,
       s.name = SiteName.responses ∧ s.observed = false ∧ (2 : ℚ) ∈ s.values ∧
       ¬((2 : ℚ) ≤ 1)) := by
  constructor
  · simp only [model] at hrun ⊢
    rw [if_pos hval] at hrun ⊢
    rw [hresp] at hrun ⊢
    rw [likelihoodPart_unit_sim] at hrun ⊢
    dsimp only at hrun ⊢
    intro m hm
    obtain ⟨a, ha, rfl⟩ := except_map_ok hm
    have ha' := Except.ok.inj ha
    intro vals hvals v hv
    rw [← ha'] at hvals
    simp only [List.mem_singleton, Prod.mk.injEq] at hvals
    rw [hvals.2] at hv
    obtain ⟨x, hx, rfl⟩ := List.mem_map.mp hv
    have hq : D.supportOK
        (D.binomialVec bins ((List.range exp.sequences.length).map
          (fun i => env SiteName.logits [i]))) x = true := by
      rw [validRun, List.all_append, Bool.and_eq_true] at hrun
      have h2 := hrun.2
      simp only [List.all_cons, List.all_nil, Bool.and_eq_true, Bool.and_true] at h2
      have h3 := h2.2
      simp only [Bool.false_or, List.all_eq_true] at h3
      exact h3 x hx
    obtain ⟨k, hk, rfl⟩ := binomial_support hq
    exact binom_div_bounds hk
  · decide

/-- Witness for claim C5 at a concrete simulation run with bin count 100. -/
theorem model_unit_interval_simulated_bounds_witness :
    (∀ m, (model exSchema [] none exSimExperiment none "unit_interval" 100 exEnv).2
        = Except.ok m →
      ∀ vals, (SiteName.responses, vals) ∈ m.dets → ∀ v ∈ vals, 0 ≤ v ∧ v ≤ 1) ∧
    (validRun (model exSchema [] none exSimExperiment none "real" 100 exEnv).1 = true ∧
     ∃ s ∈ (model exSchema [] none exSimExperiment none "real" 100 exEnv).1,
       s.name = SiteName.responses ∧ s.observed = false ∧ (2 : ℚ) ∈ s.values ∧
       ¬((2 : ℚ) ≤ 1)) :=
  model_unit_interval_simulated_bounds exSchema [] none exSimExperiment none 100 exEnv
    (by decide) rfl (by decide)

/-- Claim C6.  For every feature block (including the trivial empty block),
the coefficient tensor `model` produces for it has shape
`tuple(len(schema[name]) for name in block)` — exactly `len(block)`
dimensions, the i-th sized to the domain of the block's i-th variable; and
on the non-traced path, inputs violating the shape relationships are
rejected with an empty trace, i.e. before any Monte Carlo draw. -/
theorem model_coef_tensor_shapes (schema : Schema) (fb : List (List String))
    (ef : Option (List (List ℚ))) (exp : Experiment) (mbid : Option Nat)
    (rt : String) (bins : Nat) (env : Env)
    (hval : (validate schema exp && extraOk ef exp.sequences.length) = true)
    (hrt : rt = "real" ∨ rt = "unit_interval") :
    (∀ block ∈ [[]] ++ fb,
      ∃ t : Tensor, (some block, t) ∈ okCoefs (model schema fb ef exp mbid rt bins env).2 ∧
        t.shape = block.map (domSize schema) ∧ t.shape.length = block.length) ∧
    (∀ (schema2 : Schema) (fb2 : List (List String)) (ef2 : Option (List (List ℚ)))
       (exp2 : Experiment) (mbid2 : Option Nat) (rt2 : String) (bins2 : Nat) (env2 : Env),
      (validate schema2 exp2 && extraOk ef2 exp2.sequences.length) = false →
      model schema2 fb2 ef2 exp2 mbid2 rt2 bins2 env2
        = ([], Except.error "AssertionError")) := by
  constructor
  · intro block hb
    simp only [model]
    rw [if_pos hval]
    dsimp only
    rw [okCoefs_map (likelihoodPart_ok hrt)]
    refine ⟨drawTensor env (SiteName.block_coef (blockPs (schema.map Prod.fst) block))
      (blockShape schema block), ?_, ?_, ?_⟩
    · apply List.mem_append_left
      rw [List.map_map]
      exact List.mem_map.mpr ⟨block, hb, rfl⟩
    · rfl
    · simp [blockShape, drawTensor]
  · intro schema2 fb2 ef2 exp2 mbid2 rt2 bins2 env2 h
    simp only [model]
    rw [if_neg (by simp [h])]

/-- Witness for claim C6 at a concrete schema and feature block. -/
theorem model_coef_tensor_shapes_witness :
    (∀ block ∈ [[]] ++ [["a"]],
      ∃ t : Tensor,
        (some block, t) ∈ okCoefs (model exSchema [["a"]] none exObsExperiment none
          "real" 100 exEnv).2 ∧
        t.shape = block.map (domSize exSchema) ∧ t.shape.length = block.length) ∧
    (∀ (schema2 : Schema) (fb2 : List (List String)) (ef2 : Option (List (List ℚ)))
       (exp2 : Experiment) (mbid2 : Option Nat) (rt2 : String) (bins2 : Nat) (env2 : Env),
      (validate schema2 exp2 && extraOk ef2 exp2.sequences.length) = false →
      model schema2 fb2 ef2 exp2 mbid2 rt2 bins2 env2
        = ([], Except.error "AssertionError")) :=
  model_coef_tensor_shapes exSchema [["a"]] none exObsExperiment none "real" 100 exEnv
    (by decide) (Or.inl rfl)

/-! Theorems about `update_experiment` (claim C2) -/

lemma insertSorted_length (x : List Nat) (l : List (List Nat)) :
    (insertSorted x l).length = l.length + 1 := by
  induction l with
  | nil => rfl
  | cons y ys ih =>
      unfold insertSorted
      by_cases h : lexLe x y = true
      · simp [h]
      · simp [h, ih]

lemma sortDesigns_length (l : List (List Nat)) : (sortDesigns l).length = l.length := by
  induction l with
  | nil => rfl
  | cons x xs ih => simp [sortDesigns, insertSorted_length, ih]

/-- The concrete dataset used by the C2 counterexample: two designs with
`seq_to_id` reading off the design's single coordinate. -/
def exRolloutData : DataSet := ⟨[[0], [1]], [1/2, 3/4], fun s => s.headD 0⟩

/-- The concrete accumulated experiment used by the C2 counterexample. -/
def exRolloutExperiment : Experiment := ⟨[[0]], [0], some [1/2]⟩

/-- Counterexample to claim C2 as stated: appending the one-design batch
`[[1]]` to an experiment whose only batch id is `0` gives the new row batch
id `0` (the driver uses `torch.zeros`), which is not strictly greater than
the batch ids already present. -/
theorem update_experiment_counterexample :
    (update_experiment exRolloutExperiment [[1]] exRolloutData).batch_ids = [0, 0] ∧
    ¬ (∀ b ∈ (update_experiment exRolloutExperiment [[1]] exRolloutData).batch_ids.drop
          exRolloutExperiment.batch_ids.length,
        ∀ b' ∈ exRolloutExperiment.batch_ids, b' < b) := by
  decide

/-- Claim C2, amended.  `update_experiment` on an experiment of size `n` and
a batch of `k` designs yields an experiment of size `n + k` whose first `n`
rows (sequences, responses, batch ids) are unchanged; but every batch id
assigned to the `k` new rows is `0` (`torch.zeros(len(ids)).long()`), not a
fresh id strictly greater than the existing ones. -/
theorem update_experiment_accumulation (experiment : Experiment)
    (design : List (List Nat)) (data : DataSet) (r : List ℚ)
    (hr : experiment.responses = some r) :
    (update_experiment experiment design data).sequences.length
        = experiment.sequences.length + design.length ∧
    (update_experiment experiment design data).batch_ids.length
        = experiment.batch_ids.length + design.length ∧
    (update_experiment experiment design data).sequences.take
        experiment.sequences.length = experiment.sequences ∧
    (update_experiment experiment design data).batch_ids.take
        experiment.batch_ids.length = experiment.batch_ids ∧
    (∃ rr, (update_experiment experiment design data).responses = some rr ∧
      rr.length = r.length + design.length ∧ rr.take r.length = r) ∧
    (∀ b ∈ (update_experiment experiment design data).batch_ids.drop
        experiment.batch_ids.length, b = 0) := by
  refine ⟨?_, ?_, ?_, ?_, ?_, ?_⟩
  · simp [update_experiment, sortDesigns_length]
  · simp [update_experiment, sortDesigns_length]
  · simp [update_experiment, List.take_left]
  · simp [update_experiment, List.take_left]
  · refine ⟨r ++ (((sortDesigns design).map data.seq_to_id).map
      (fun i => data.responses.getD i 0)), ?_, ?_, ?_⟩
    · simp [update_experiment, hr]
    · simp [sortDesigns_length]
    · simp [List.take_left]
  · intro b hb
    simp only [update_experiment, List.drop_left] at hb
    obtain ⟨i, _, h⟩ := List.mem_map.mp hb
    exact h.symm

/-- Witness for the amended claim C2 at the concrete one-design batch. -/
theorem update_experiment_accumulation_witness :
    (update_experiment exRolloutExperiment [[1]] exRolloutData).sequences.length
        = exRolloutExperiment.sequences.length + 1 ∧
    (update_experiment exRolloutExperiment [[1]] exRolloutData).batch_ids.length
        = exRolloutExperiment.batch_ids.length + 1 ∧
    (update_experiment exRolloutExperiment [[1]] exRolloutData).sequences.take
        exRolloutExperiment.sequences.length = exRolloutExperiment.sequences ∧
    (update_experiment exRolloutExperiment [[1]] exRolloutData).batch_ids.take
        exRolloutExperiment.batch_ids.length = exRolloutExperiment.batch_ids ∧
    (∃ rr, (update_experiment exRolloutExperiment [[1]] exRolloutData).responses = some rr ∧
      rr.length = [(1 : ℚ)/2].length + 1 ∧ rr.take [(1 : ℚ)/2].length = [(1 : ℚ)/2]) ∧
    (∀ b ∈ (update_experiment exRolloutExperiment [[1]] exRolloutData).batch_ids.drop
        exRolloutExperiment.batch_ids.length, b = 0) :=
  update_experiment_accumulation exRolloutExperiment [[1]] exRolloutData [1/2] rfl

/-! Theorems about `Sampler` and `fit_svi` (claims C7-C10) -/

/-- Claim C7.  A `Sampler` over an empty sample dict fails at construction
(`next(iter(samples.values()))` raises `StopIteration`), and a `Sampler`
whose per-site sample batches are empty (`num_samples = 0`) fails at every
call (`torch.randint(0, 0, ())` raises): the sampler never silently yields
a value from an empty sample set. -/
theorem sampler_empty_fatal :
    Sampler.init ([] : List (String × List ℚ)) = Except.error "StopIteration" ∧
    (∀ (samples : List (String × List ℚ)) (s : Sampler) (r : Nat),
      Sampler.init samples = Except.ok s → s.num_samples = 0 →
      s.call r = Except.error "random_ expects from to be less than to") := by
  refine ⟨rfl, ?_⟩
  intro samples s r _ h0
  simp [Sampler.call, torch_randint, h0, Except.map]

/-- Witness for claim C7: a sampler with one site holding zero samples. -/
theorem sampler_empty_fatal_witness :
    Sampler.call ⟨[("a", [])], 0⟩ 5 = Except.error "random_ expects from to be less than to" :=
  sampler_empty_fatal.2 [("a", [])] ⟨[("a", [])], 0⟩ 5 rfl rfl

/-- Claim C8.  A call of a `Sampler` built over stored draws picks one index
`i = randint(0, num_samples) < num_samples` and returns the assignment
`{k: samples[k][i]}` with that same `i` for every site (one coherent joint
sample); every index below `num_samples` is selected for some random-stream
value; and the sampler stores the sample dict it was built from, unmodified. -/
theorem sampler_call_coherent (samples : List (String × List ℚ)) (s : Sampler)
    (hinit : Sampler.init samples = Except.ok s) (hpos : 0 < s.num_samples) :
    s.samples = samples ∧
    (∀ r : Nat, r % s.num_samples < s.num_samples ∧
      s.call r = Except.ok (s.samples.map (fun kv => (kv.1, kv.2.getD (r % s.num_samples) 0)))) ∧
    (∀ i : Nat, i < s.num_samples →
      s.call i = Except.ok (s.samples.map (fun kv => (kv.1, kv.2.getD i 0)))) := by
  have hsamp : s.samples = samples := by
    cases samples with
    | nil => simp [Sampler.init] at hinit
    | cons kv rest =>
        obtain ⟨k, v⟩ := kv
        have h := Except.ok.inj hinit
        rw [← h]
  refine ⟨hsamp, ?_, ?_⟩
  · intro r
    refine ⟨Nat.mod_lt _ hpos, ?_⟩
    simp [Sampler.call, torch_randint, hpos, Except.map]
  · intro i hi
    simp [Sampler.call, torch_randint, hpos, Except.map, Nat.mod_eq_of_lt hi]

/-- Witness for claim C8: two sites with two stored samples each; the
random-stream value `3` selects index `3 % 2 = 1` at both sites. -/
theorem sampler_call_coherent_witness :
    Sampler.call ⟨[("a", [1, 2]), ("b", [3, 4])], 2⟩ 3
      = Except.ok [("a", (2 : ℚ)), ("b", 4)] := by
  have h := (sampler_call_coherent [("a", [(1 : ℚ), 2]), ("b", [3, 4])]
    ⟨[("a", [1, 2]), ("b", [3, 4])], 2⟩ rfl (by decide)).2.1 3
  exact h.2.trans rfl

/-- Claim C9.  The decay factor `lrd = 0.1 ** (1 / num_steps)` passed to the
optimizer by `fit_svi` makes the learning rate decay geometrically, and
after `num_steps` steps it equals `lr * 0.1` exactly, in exact real
arithmetic, for every positive `num_steps`. -/
theorem fit_svi_lr_decay (lr : ℝ) (num_steps : ℕ) (h : 0 < num_steps) :
    lr_after lr num_steps num_steps = lr * 0.1 := by
  unfold lr_after fit_svi_lrd
  rw [← Real.rpow_natCast ((0.1 : ℝ) ^ ((1 : ℝ) / (num_steps : ℝ))) num_steps,
      ← Real.rpow_mul (by norm_num : (0 : ℝ) ≤ 0.1)]
  rw [one_div, inv_mul_cancel₀ (Nat.cast_ne_zero.mpr h.ne' : (num_steps : ℝ) ≠ 0),
      Real.rpow_one]

/-- Witness for claim C9 at `lr = 1`, `num_steps = 1`. -/
theorem fit_svi_lr_decay_witness : lr_after 1 1 1 = 1 * 0.1 :=
  fit_svi_lr_decay 1 1 one_pos

/-- Claim C10.  `fit_svi` clears the global parameter store before creating
the guide: its result is independent of whatever the store held when it was
called (it depends only on this call's arguments), the guide is created
against the empty store, and the parameters of previous fits are discarded —
the final store derives from the empty store alone. -/
theorem fit_svi_discards_previous_params {G : Type} (store1 store2 : ParamStore)
    (mkGuide : ParamStore → G) (step : ParamStore → ParamStore) (num_steps : ℕ) :
    fit_svi store1 mkGuide step num_steps = fit_svi store2 mkGuide step num_steps ∧
    (fit_svi store1 mkGuide step num_steps).1 = mkGuide [] ∧
    (fit_svi store1 mkGuide step num_steps).2 = step^[num_steps] [] :=
  ⟨rfl, rfl, rfl⟩

end Pyroed
